import Mathlib

/-!
Shallow embedding of `packages/fiber/src/core/loop.ts`: the frame scheduler of
the repository (global effect registries, the per-root `update` routine, the
driver's `loop` tick, and the `invalidate` / `advance` API).

Modelling conventions:
* Timestamps, clock times and deltas are `Int` (JS numbers used as reals).
* Callbacks are opaque identifiers (`Nat`); invoking a callback is recorded as
  an event (`Ev`) in an output trace rather than executed.
* The external clock primitive (`state.clock.getDelta()`) is out of scope of
  the source; it is modelled from the spec as reporting a delta `d` for the
  tick and, while running, advancing its recorded times by `d` (a stopped
  clock reports `d = 0` and does not advance).
* The host tick primitive (`requestAnimationFrame` / `cancelAnimationFrame`)
  is modelled by `reqFrame` / `cancelFrame` events plus a `framePending` flag
  recording whether a requested tick is still outstanding.
-/

namespace Loop

/-- Frame-loop mode of a root (`state.frameloop`). -/
inductive Frameloop
  | always
  | demand
  | never
  deriving DecidableEq, Repr

/-- The two standing stage entries the driver installs lazily: the
update-phase subscriber-runner (`frameCallback`, loop.ts lines 86-95) and the
render-phase submit entry (`renderCallback`, lines 99-104). Their bodies are
dispatched by the external stage container, so they are modelled as tags. -/
inductive StageEntry
  | updateRunner
  | renderSubmit
  deriving DecidableEq, Repr

/-- Observable events of the scheduler: global effect invocations, stage
pipeline runs, and host tick requests / cancellations. -/
inductive Ev
  | pre (cb : Nat) (t : Int)
  | post (cb : Nat) (t : Int)
  | tail (cb : Nat) (t : Int)
  | stageFrame (root : Nat) (stage : Nat) (delta : Int)
  | reqFrame
  | cancelFrame
  deriving DecidableEq, Repr

/-- True exactly on tail-effect invocation events. -/
def Ev.isTail : Ev → Bool
  | .tail _ _ => true
  | _ => false

/-- True exactly on host tick-request events. -/
def Ev.isReq : Ev → Bool
  | .reqFrame => true
  | _ => false

/-- The clock of a root (`state.clock`), reduced to the two fields loop.ts
reads and writes (`elapsedTime`, `oldTime`). -/
structure Clock where
  elapsedTime : Int
  oldTime : Int
  deriving DecidableEq, Repr

/-- `state.internal`: the scheduler-relevant internal fields of a root.
`stages` is the root's pipeline (`state.internal.stages`) as a list of opaque
stage identifiers in pipeline order; `subscribers` is the registration-ordered
list of useFrame subscriptions (consumed only by the externally dispatched
update-stage entry, so opaque identifiers suffice). -/
structure Internal where
  frames : Nat
  maxDelta : Int
  active : Bool
  stages : List Nat
  subscribers : List Nat
  deriving DecidableEq, Repr

/-- A root's state store (`RootState`), reduced to the fields loop.ts touches.
`xrPresenting` is `state.gl.xr?.isPresenting`; `renderAuto` is
`state.render === 'auto'` (read only inside the installed render entry, which
the external stage container dispatches).  `installedUpdate` and
`installedRender` model the per-root stage containers that
`state.getStage('update')` / `state.getStage('render')` return: the lists of
entries the driver has added to them via `Stage.add` (append). -/
structure RootState where
  frameloop : Frameloop
  clock : Clock
  internal : Internal
  xrPresenting : Bool
  renderAuto : Bool
  installedUpdate : List StageEntry
  installedRender : List StageEntry
  deriving DecidableEq, Repr

/-- The driver's own state: the module-level mutable variables of loop.ts
(`globalEffects`, `globalAfterEffects`, `globalTailEffects`, `init`,
`running`) together with the Root Set passed to `createLoop` (a list in
iteration order, ids paired with states) and the host scheduler's pending-tick
flag `framePending` (whether a tick requested via `requestAnimationFrame` is
still outstanding; `cancelAnimationFrame` clears it). -/
structure LoopState where
  roots : List (Nat × RootState)
  globalEffects : List Nat
  globalAfterEffects : List Nat
  globalTailEffects : List Nat
  init : Bool
  running : Bool
  framePending : Bool
  deriving DecidableEq, Repr

/-- `createSubs(callback, subs)` (loop.ts lines 7-11): captures the current
length as the insertion index, appends the callback, and the returned remover
performs `subs.splice(index, 1)` at the captured index (see `spliceOne`).
Returns the new list and the captured index. -/
def createSubs (callback : Nat) (subs : List Nat) : List Nat × Nat :=
  (subs ++ [callback], subs.length)

/-- `subs.splice(i, 1)`: remove the element at position `i` when `i` is in
range, otherwise leave the list unchanged. -/
def spliceOne (subs : List Nat) (i : Nat) : List Nat :=
  subs.take i ++ subs.drop (i + 1)

/-- C3 counterexample input: register callback 10 into the empty registry,
then callback 20; the first registration's remover splices at index 0. -/
def regFirst : List Nat × Nat := createSubs 10 []

/-- C3 counterexample input, second registration. -/
def regSecond : List Nat × Nat := createSubs 20 regFirst.1

/-- The delta computation of `update` (loop.ts lines 44-52) together with the
clock writes it performs.  `d` is the value the external clock's `getDelta()`
reports for this tick; a running clock advances `elapsedTime` and `oldTime`
by the delta it reports, a stopped clock reports `0` and does not advance
(Modelled from the spec: clock primitives are external, specified only by the
delta they report — getDelta is called first and unconditionally).  In
`frameloop === 'never'` mode the code then overwrites:
`delta = timestamp - clock.elapsedTime; clock.oldTime = clock.elapsedTime;
clock.elapsedTime = timestamp`; otherwise
`delta = Math.min(delta, state.internal.maxDelta)`.  The
`typeof timestamp === 'number'` guard is always true in the model because
timestamps are total. -/
def deltaClock (t d maxDelta : Int) (fl : Frameloop) (c : Clock) : Int × Clock :=
  let c1 : Clock := { elapsedTime := c.elapsedTime + d, oldTime := c.oldTime + d }
  if fl = Frameloop.never then
    (t - c1.elapsedTime, { elapsedTime := t, oldTime := c1.elapsedTime })
  else
    (min d maxDelta, c1)

/-- `update(timestamp, state, frame)` (loop.ts lines 42-60) for the root with
id `rid`: computes the delta and the clock writes (`deltaClock`), runs every
stage of the root's pipeline with the delta (recorded as `stageFrame` events,
in pipeline order), decrements the pending-frame counter
(`Math.max(0, frames - 1)` is truncated subtraction on `Nat`), and returns
the repeat contribution: `1` in `always` mode, else the decremented
counter. -/
def update (t d : Int) (rid : Nat) (s : RootState) : RootState × Nat × List Ev :=
  let dc := deltaClock t d s.internal.maxDelta s.frameloop s.clock
  let frames1 := s.internal.frames - 1
  ({ s with clock := dc.2, internal := { s.internal with frames := frames1 } },
    if s.frameloop = Frameloop.always then 1 else frames1,
    s.internal.stages.map (fun st => Ev.stageFrame rid st dc.1))

/-- The first-tick lazy installation (loop.ts lines 83-106): one entry is
appended to the root's update stage (`updateStage!.add(frameCallback, store)`)
and one to its render stage (`renderStage!.add(renderCallback, store)`). -/
def installEntries (s : RootState) : RootState :=
  { s with
    installedUpdate := s.installedUpdate ++ [StageEntry.updateRunner],
    installedRender := s.installedRender ++ [StageEntry.renderSubmit] }

/-- The body of the per-root loop in `loop` (loop.ts lines 78-116): lazily
install the two stage entries while `init` is set (the source clears `init`
inside this first install, so only the first root processed ever installs),
then run `update` exactly when
`state.internal.active && (state.frameloop === 'always' ||
state.internal.frames > 0) && !state.gl.xr?.isPresenting`, else skip the root
contributing `0` and producing no events. -/
def tickRoot (t d : Int) (init : Bool) (rid : Nat) (s : RootState) :
    RootState × Nat × List Ev :=
  let s1 := cond init (installEntries s) s
  if s1.internal.active = true
      ∧ (s1.frameloop = Frameloop.always ∨ 0 < s1.internal.frames)
      ∧ s1.xrPresenting = false then
    update t d rid s1
  else
    (s1, 0, [])

/-- `roots.forEach` inside `loop`: process the Root Set in iteration order,
threading the `init` flag (after the first root it is always false), summing
the repeat contributions and concatenating the per-root traces.  `d` maps a
root id to the delta its clock reports this tick. -/
def processRoots (t : Int) (d : Nat → Int) :
    Bool → List (Nat × RootState) → List (Nat × RootState) × Nat × List Ev
  | _, [] => ([], 0, [])
  | init, p :: rest =>
    let r := tickRoot t (d p.1) init p.1 p.2
    let pr := processRoots t d false rest
    ((p.1, r.1) :: pr.1, r.2.1 + pr.2.1, r.2.2 ++ pr.2.2)

/-- One invocation of `loop(timestamp)` (loop.ts lines 69-130): request the
next tick and set `running` up front, run the pre-effects, process every
root, run the after-effects; if the summed `repeat` is zero, run the tail
effects, clear `running` and cancel the tick requested at the top
(`cancelAnimationFrame(frame)`), otherwise leave that request standing.
Returns the new driver state, the summed `repeat`, and the trace.  The
`if (effects.length)` guards in the source are skipped-iteration
optimizations with no observable effect (running an empty list does
nothing). -/
def tick (ls : LoopState) (t : Int) (d : Nat → Int) : LoopState × Nat × List Ev :=
  let pr := processRoots t d ls.init ls.roots
  let init1 := ls.init && ls.roots.isEmpty
  let evsMain := Ev.reqFrame ::
    (ls.globalEffects.map (fun c => Ev.pre c t) ++ pr.2.2
      ++ ls.globalAfterEffects.map (fun c => Ev.post c t))
  if pr.2.1 = 0 then
    ({ ls with roots := pr.1, init := init1, running := false, framePending := false },
      pr.2.1,
      evsMain ++ ls.globalTailEffects.map (fun c => Ev.tail c t) ++ [Ev.cancelFrame])
  else
    ({ ls with roots := pr.1, init := init1, running := true, framePending := true },
      pr.2.1, evsMain)

/-- The body of `invalidate(state, frames)` for a given root state (loop.ts
lines 134-141): a silent no-op when the root is XR-presenting, inactive, or
in `never` mode; otherwise clamp-increment the pending-frame counter
(`Math.min(60, frames + n)`) and, if the loop is not running, set `running`
and request a tick.  Threads the driver's `running` flag and the host's
pending-tick flag; returns the new root state, the two flags, and the
trace. -/
def invalidateStep (s : RootState) (n : Nat) (running framePending : Bool) :
    RootState × Bool × Bool × List Ev :=
  if s.xrPresenting = true ∨ s.internal.active = false
      ∨ s.frameloop = Frameloop.never then
    (s, running, framePending, [])
  else
    let s1 := { s with internal :=
      { s.internal with frames := min 60 (s.internal.frames + n) } }
    cond running (s1, running, framePending, []) (s1, true, true, [Ev.reqFrame])

/-- Apply `invalidateStep` with frame count `n` to every root selected by
`sel`, in Root Set iteration order, threading `running` / `framePending`.
With `sel` constantly true this is the fan-out
`roots.forEach((root) => invalidate(root.store.getState()), frames)`; with
`sel` matching a single id it is `invalidate` called with that root's own
state object (mutation through the shared store reference). -/
def invalidateRoots (n : Nat) (sel : Nat → Bool) :
    List (Nat × RootState) → Bool → Bool →
      List (Nat × RootState) × Bool × Bool × List Ev
  | [], running, framePending => ([], running, framePending, [])
  | p :: rest, running, framePending =>
    cond (sel p.1)
      (let r := invalidateStep p.2 n running framePending
       let rr := invalidateRoots n sel rest r.2.1 r.2.2.1
       ((p.1, r.1) :: rr.1, rr.2.1, rr.2.2.1, r.2.2.2 ++ rr.2.2.2))
      (let rr := invalidateRoots n sel rest running framePending
       ((p.1, p.2) :: rr.1, rr.2.1, rr.2.2.1, rr.2.2.2))

/-- `invalidate(state?, frames = 1)` (loop.ts lines 132-142).  With no root
given, the source is
`roots.forEach((root) => invalidate(root.store.getState()), frames)`: the
written `frames` is the `thisArg` of `forEach`, not an argument of the inner
call, so every fan-out call runs with the default frame count `1` and the
supplied `n` is dropped.  With a root state given, apply `invalidateStep` to
it with `n`; the updated state is returned in the second component (the
source mutates the shared store object in place). -/
def invalidate (ls : LoopState) (target : Option RootState) (n : Nat) :
    LoopState × Option RootState × List Ev :=
  match target with
  | none =>
    let r := invalidateRoots 1 (fun _ => true) ls.roots ls.running ls.framePending
    ({ ls with roots := r.1, running := r.2.1, framePending := r.2.2.1 },
      none, r.2.2.2)
  | some s =>
    let r := invalidateStep s n ls.running ls.framePending
    ({ ls with running := r.2.1, framePending := r.2.2.1 }, some r.1, r.2.2.2)

/-- The `roots.forEach((root) => update(timestamp, root.store.getState()))`
branch of `advance`: update every root in iteration order. -/
def advanceAll (t : Int) (d : Nat → Int) :
    List (Nat × RootState) → List (Nat × RootState) × List Ev
  | [] => ([], [])
  | p :: rest =>
    let r := update t (d p.1) p.1 p.2
    let rr := advanceAll t d rest
    ((p.1, r.1) :: rr.1, r.2.2 ++ rr.2)

/-- `advance(timestamp, runGlobalEffects = true, state?, frame?)` (loop.ts
lines 144-154): optionally run the global pre-effects, then either update
every root (no target) or exactly the given root state, then optionally run
the global after-effects.  It never touches `init`, `running`, the pending
host tick, or the tail effects.  The updated target state is returned in the
second component (the source mutates the shared store object in place). -/
def advance (ls : LoopState) (t : Int) (d : Nat → Int) (runGlobalEffects : Bool)
    (target : Option (Nat × RootState)) : LoopState × Option RootState × List Ev :=
  let evPre := cond runGlobalEffects (ls.globalEffects.map (fun c => Ev.pre c t)) []
  let evPost := cond runGlobalEffects (ls.globalAfterEffects.map (fun c => Ev.post c t)) []
  match target with
  | none =>
    let r := advanceAll t d ls.roots
    ({ ls with roots := r.1 }, none, evPre ++ r.2 ++ evPost)
  | some p =>
    let r := update t (d p.1) p.1 p.2
    (ls, some r.1, evPre ++ r.2.2 ++ evPost)

/-- The operations an external caller can perform on the scheduler, for
stating properties over arbitrary sequences: a driver tick with a timestamp
and per-root clock deltas, a global `invalidate()` (no root; the frame-count
argument is recorded but, per the source, dropped by the fan-out), and
`invalidate` called with the state of the root with a given id. -/
inductive Op
  | tick (t : Int) (d : Nat → Int)
  | invalidateAll (n : Nat)
  | invalidateRoot (rid : Nat) (n : Nat)

/-- Execute one operation against the driver state. -/
def execOp (ls : LoopState) : Op → LoopState
  | .tick t d => (tick ls t d).1
  | .invalidateAll n => (invalidate ls none n).1
  | .invalidateRoot rid n =>
    let r := invalidateRoots n (fun j => j == rid) ls.roots ls.running ls.framePending
    { ls with roots := r.1, running := r.2.1, framePending := r.2.2.1 }

/-- Execute a sequence of operations in order. -/
def execSeq (ls : LoopState) (ops : List Op) : LoopState :=
  ops.foldl execOp ls

/-- Projection of a Root Set entry to its id and the stage entries the driver
has installed for it. -/
def installView (p : Nat × RootState) : Nat × List StageEntry × List StageEntry :=
  (p.1, p.2.installedUpdate, p.2.installedRender)

/-- Constant zero clock-delta oracle for concrete evaluations. -/
def dz : Nat → Int := fun _ => 0

/-- An inactive demand-mode root with an empty pipeline history. -/
def inactiveRoot : RootState :=
  { frameloop := Frameloop.demand
    clock := { elapsedTime := 0, oldTime := 0 }
    internal := { frames := 0, maxDelta := 100, active := false, stages := [1], subscribers := [] }
    xrPresenting := false
    renderAuto := true
    installedUpdate := []
    installedRender := [] }

/-- A fresh driver observing two roots on its first tick. -/
def twoRootsInit : LoopState :=
  { roots := [(0, inactiveRoot), (1, inactiveRoot)]
    globalEffects := []
    globalAfterEffects := []
    globalTailEffects := []
    init := true
    running := false
    framePending := false }

/-- An active never-mode root with pending-frame counter 0 (and no XR). -/
def neverIdleRoot : RootState :=
  { inactiveRoot with
    frameloop := Frameloop.never
    internal := { inactiveRoot.internal with active := true } }

/-- An active always-mode root. -/
def alwaysRoot : RootState :=
  { inactiveRoot with
    frameloop := Frameloop.always
    internal := { inactiveRoot.internal with active := true } }

/-- An active demand-mode root with pending-frame counter 0 (eligible for
invalidation). -/
def demandRoot0 : RootState :=
  { inactiveRoot with
    internal := { inactiveRoot.internal with active := true } }

/-- A driver with no roots and one registered tail effect. -/
def tailLoop : LoopState :=
  { twoRootsInit with roots := [], globalTailEffects := [3] }

/-- An empty, idle driver. -/
def emptyLoop : LoopState :=
  { twoRootsInit with roots := [] }

/-- A driver holding a single eligible demand-mode root with counter 0. -/
def oneDemandLoop : LoopState :=
  { twoRootsInit with
    roots := [(0, demandRoot0)]
    init := false
    running := true
    framePending := true }

/-- C3: the claim states that invoking an unregister handle a second time is a
no-op.  Counterexample: register callbacks 10 and 20; invoking the first
handle once yields the list `[20]`, and invoking it a second time splices at
index 0 again and removes callback 20 — the list changes, so the second
invocation is not a no-op. -/
theorem unregister_second_call_not_noop :
    spliceOne (spliceOne regSecond.1 regFirst.2) regFirst.2
      ≠ spliceOne regSecond.1 regFirst.2 := by
  decide

/-- C3 (amended): the handle returned by `createSubs` removes the element at
the captured insertion index.  If entries were only appended (never removed)
after registration, this removes exactly the registered entry; and an
invocation is a no-op when the list has already shrunk to length at most the
captured index.  (It is not a no-op in general on a second call, and after
removals of earlier-registered entries it can remove a different entry — see
the counterexample.) -/
theorem unregister_removes_captured_index :
    ∀ (subs extra : List Nat) (cb : Nat),
      spliceOne ((createSubs cb subs).1 ++ extra) (createSubs cb subs).2 = subs ++ extra
      ∧ (∀ l : List Nat, l.length ≤ (createSubs cb subs).2 →
          spliceOne l (createSubs cb subs).2 = l) := by
  intro subs extra cb
  constructor
  · show spliceOne ((subs ++ [cb]) ++ extra) subs.length = subs ++ extra
    unfold spliceOne
    rw [List.append_assoc subs [cb] extra]
    rw [List.take_left]
    have hlen : subs.length + 1 = (subs ++ [cb]).length := by
      simp [List.length_append]
    rw [← List.append_assoc subs [cb] extra, hlen, List.drop_left]
  · intro l hl
    unfold spliceOne
    have h1 : l.take (createSubs cb subs).2 = l := List.take_of_length_le hl
    have h2 : l.drop ((createSubs cb subs).2 + 1) = [] :=
      List.drop_eq_nil_of_le (Nat.le_succ_of_le hl)
    rw [h1, h2, List.append_nil]

/-- C3 witness: concrete instance of `unregister_removes_captured_index` with
`subs = [5]`, `extra = [9]`, `cb = 7`, and the no-op part at `l = [3]`. -/
theorem unregister_removes_captured_index_witness :
    ([3] : List Nat).length ≤ (createSubs 7 [5]).2
    ∧ spliceOne ((createSubs 7 [5]).1 ++ [9]) (createSubs 7 [5]).2 = [5, 9]
    ∧ spliceOne [3] (createSubs 7 [5]).2 = [3] :=
  ⟨by decide, (unregister_removes_captured_index [5] [9] 7).1,
    (unregister_removes_captured_index [5] [9] 7).2 [3] (by decide)⟩

lemma update_frames (t d : Int) (rid : Nat) (s : RootState) :
    ((update t d rid s).1).internal.frames = s.internal.frames - 1 := rfl

lemma tickRoot_installView_false (t d : Int) (rid : Nat) (s : RootState) :
    ((tickRoot t d false rid s).1).installedUpdate = s.installedUpdate
    ∧ ((tickRoot t d false rid s).1).installedRender = s.installedRender := by
  unfold tickRoot
  dsimp only [cond_false]
  split
  · exact ⟨rfl, rfl⟩
  · exact ⟨rfl, rfl⟩

lemma tickRoot_installView_true (t d : Int) (rid : Nat) (s : RootState) :
    ((tickRoot t d true rid s).1).installedUpdate
        = s.installedUpdate ++ [StageEntry.updateRunner]
    ∧ ((tickRoot t d true rid s).1).installedRender
        = s.installedRender ++ [StageEntry.renderSubmit] := by
  unfold tickRoot
  dsimp only [cond_true]
  split
  · exact ⟨rfl, rfl⟩
  · exact ⟨rfl, rfl⟩

lemma processRoots_installView_false (t : Int) (d : Nat → Int) :
    ∀ rs : List (Nat × RootState),
      ((processRoots t d false rs).1).map installView = rs.map installView := by
  intro rs
  induction rs with
  | nil => rfl
  | cons p rest ih =>
    show ((p.1, (tickRoot t (d p.1) false p.1 p.2).1) ::
        (processRoots t d false rest).1).map installView = _
    have h := tickRoot_installView_false t (d p.1) p.1 p.2
    simp [installView, List.map_cons, h.1, h.2, ih]

lemma tick_rep (ls : LoopState) (t : Int) (d : Nat → Int) :
    (tick ls t d).2.1 = (processRoots t d ls.init ls.roots).2.1 := by
  unfold tick
  dsimp only
  split <;> rfl

/-- C2 (amended): the lazy installation happens exactly once per driver
instance — on the first tick that observes a nonempty Root Set, the first
root in iteration order receives both standing stage entries (appended once
each), every other root receives none, and once `init` is cleared no
installation ever happens again; `init` stays set only while the Root Set is
empty. -/
theorem install_once_first_root_only :
    ∀ (t : Int) (d : Nat → Int) (rid : Nat) (s : RootState)
      (rest : List (Nat × RootState)) (ls : LoopState),
      ((processRoots t d true ((rid, s) :: rest)).1).map installView
          = (rid, s.installedUpdate ++ [StageEntry.updateRunner],
                s.installedRender ++ [StageEntry.renderSubmit]) :: rest.map installView
      ∧ ((processRoots t d false rest).1).map installView = rest.map installView
      ∧ (tick ls t d).1.init = (ls.init && ls.roots.isEmpty) := by
  intro t d rid s rest ls
  refine ⟨?_, processRoots_installView_false t d rest, ?_⟩
  · show ((rid, (tickRoot t (d rid) true rid s).1) ::
        (processRoots t d false rest).1).map installView = _
    have h := tickRoot_installView_true t (d rid) rid s
    simp [installView, List.map_cons, h.1, h.2, processRoots_installView_false]
  · unfold tick
    dsimp only
    split <;> rfl

/-- C2 counterexample: with two roots present on the driver's first tick, the
source clears `init` inside the first root's install, so the second root
never receives the standing stage entries — not on the first tick nor on any
later one — contradicting the claim that no live root is left without its
entries. -/
theorem install_skips_second_root :
    ((execSeq twoRootsInit [Op.tick 0 dz, Op.tick 0 dz]).roots).map installView
        = [(0, [StageEntry.updateRunner], [StageEntry.renderSubmit]), (1, [], [])]
    ∧ ¬ (∀ p ∈ (execSeq twoRootsInit [Op.tick 0 dz, Op.tick 0 dz]).roots,
          p.2.installedUpdate = [StageEntry.updateRunner]) := by
  constructor
  · decide
  · decide

lemma shouldRun_neg (s : RootState) :
    (¬ (s.internal.active = true
        ∧ (s.frameloop = Frameloop.always ∨ 0 < s.internal.frames)
        ∧ s.xrPresenting = false))
    ↔ (s.internal.active = false
        ∨ (s.frameloop ≠ Frameloop.always ∧ s.internal.frames = 0)
        ∨ s.xrPresenting = true) := by
  constructor
  · intro h
    by_cases ha : s.internal.active = true
    · by_cases hx : s.xrPresenting = false
      · refine Or.inr (Or.inl ?_)
        by_cases hf : s.frameloop = Frameloop.always
        · exact absurd ⟨ha, Or.inl hf, hx⟩ h
        · refine ⟨hf, ?_⟩
          by_cases hn : s.internal.frames = 0
          · exact hn
          · exact absurd ⟨ha, Or.inr (Nat.pos_of_ne_zero hn), hx⟩ h
      · exact Or.inr (Or.inr (by simpa [Bool.not_eq_false] using hx))
    · exact Or.inl (by simpa [Bool.not_eq_true] using ha)
  · rintro (h | ⟨h1, h2⟩ | h) ⟨ha, hf, hx⟩
    · rw [ha] at h; cases h
    · rcases hf with hf | hf
      · exact h1 hf
      · rw [h2] at hf; exact absurd hf (lt_irrefl 0)
    · rw [hx] at h; cases h

/-- C4 (amended): during a driver tick, a root with a nonempty pipeline
contributes 0 to the repeat tally and runs no stage if and only if it is
inactive, or its frame-loop mode is other than `always` (demand or never)
with pending-frame counter 0, or its XR flag is set; a processed root
contributes 1 in `always` mode, else its decremented counter. -/
theorem root_skip_iff :
    ∀ (t d : Int) (rid : Nat) (s : RootState), s.internal.stages ≠ [] →
      (((tickRoot t d false rid s).2.1 = 0 ∧ (tickRoot t d false rid s).2.2 = [])
        ↔ (s.internal.active = false
            ∨ (s.frameloop ≠ Frameloop.always ∧ s.internal.frames = 0)
            ∨ s.xrPresenting = true))
      ∧ (s.internal.active = true →
          (s.frameloop = Frameloop.always ∨ 0 < s.internal.frames) →
          s.xrPresenting = false →
          (tickRoot t d false rid s).2.1
            = if s.frameloop = Frameloop.always then 1 else s.internal.frames - 1) := by
  intro t d rid s hst
  unfold tickRoot
  dsimp only [cond_false]
  constructor
  · split
    next hc =>
      constructor
      · rintro ⟨h0, hev⟩
        exfalso
        have hnil : s.internal.stages = [] := by
          simpa [update, List.map_eq_nil_iff] using hev
        exact hst hnil
      · intro hr
        exact absurd hc ((shouldRun_neg s).2 hr)
    next hc =>
      constructor
      · intro _
        exact (shouldRun_neg s).1 hc
      · intro _
        exact ⟨rfl, rfl⟩
  · intro ha hf hx
    rw [if_pos (show s.internal.active = true
        ∧ (s.frameloop = Frameloop.always ∨ 0 < s.internal.frames)
        ∧ s.xrPresenting = false from ⟨ha, hf, hx⟩)]
    rfl

/-- C4 counterexample: an active root in `never` mode with counter 0 and no
XR is skipped by the tick (contributes 0, runs no stage), yet the claim's
skip condition — inactive, or demand with counter 0, or XR — does not hold
for it, so the claimed equivalence is false. -/
theorem skip_condition_counterexample :
    ((tickRoot 0 0 false 0 neverIdleRoot).2.1 = 0
      ∧ (tickRoot 0 0 false 0 neverIdleRoot).2.2 = ([] : List Ev))
    ∧ ¬ (neverIdleRoot.internal.active = false
          ∨ (neverIdleRoot.frameloop = Frameloop.demand
              ∧ neverIdleRoot.internal.frames = 0)
          ∨ neverIdleRoot.xrPresenting = true) := by
  decide

/-- C4 witness: instance of `root_skip_iff` at an active always-mode root. -/
theorem root_skip_iff_witness :
    alwaysRoot.internal.stages ≠ []
    ∧ (tickRoot 0 0 false 0 alwaysRoot).2.1
        = if alwaysRoot.frameloop = Frameloop.always then 1
          else alwaysRoot.internal.frames - 1 :=
  ⟨by decide, (root_skip_iff 0 0 0 alwaysRoot (by decide)).2 rfl (Or.inl rfl) rfl⟩

lemma tickRoot_frames_le (t d : Int) (init : Bool) (rid : Nat) (s : RootState)
    (h : s.internal.frames ≤ 60) :
    ((tickRoot t d init rid s).1).internal.frames ≤ 60 := by
  unfold tickRoot
  cases init <;> dsimp only [cond_false, cond_true] <;> split
  · exact le_trans (Nat.sub_le _ _) h
  · exact h
  · exact le_trans (Nat.sub_le _ _) h
  · exact h

lemma processRoots_frames_le (t : Int) (d : Nat → Int) :
    ∀ (rs : List (Nat × RootState)) (init : Bool),
      (∀ p ∈ rs, p.2.internal.frames ≤ 60) →
      ∀ p ∈ (processRoots t d init rs).1, p.2.internal.frames ≤ 60 := by
  intro rs
  induction rs with
  | nil =>
    intro init h p hp
    cases hp
  | cons q rest ih =>
    intro init h p hp
    have hp2 : p ∈ (q.1, (tickRoot t (d q.1) init q.1 q.2).1) ::
        (processRoots t d false rest).1 := hp
    rcases List.mem_cons.mp hp2 with he | ht
    · subst he
      exact tickRoot_frames_le t (d q.1) init q.1 q.2 (h q (List.mem_cons_self q rest))
    · exact ih false (fun r hr => h r (List.mem_cons_of_mem q hr)) p ht

lemma invalidateStep_frames_le (s : RootState) (n : Nat) (running fp : Bool)
    (h : s.internal.frames ≤ 60) :
    ((invalidateStep s n running fp).1).internal.frames ≤ 60 := by
  unfold invalidateStep
  split
  · exact h
  · cases running <;> dsimp only [cond_false, cond_true] <;> exact Nat.min_le_left 60 _

lemma invalidateRoots_frames_le (n : Nat) (sel : Nat → Bool) :
    ∀ (rs : List (Nat × RootState)) (running fp : Bool),
      (∀ p ∈ rs, p.2.internal.frames ≤ 60) →
      ∀ p ∈ (invalidateRoots n sel rs running fp).1, p.2.internal.frames ≤ 60 := by
  intro rs
  induction rs with
  | nil =>
    intro running fp h p hp
    cases hp
  | cons q rest ih =>
    intro running fp h p hp
    have hq := h q (List.mem_cons_self q rest)
    have hrest := fun r hr => h r (List.mem_cons_of_mem q hr)
    rw [invalidateRoots] at hp
    cases hsel : sel q.1 <;> rw [hsel] at hp <;> dsimp only [cond_false, cond_true] at hp
    · rcases List.mem_cons.mp hp with he | ht
      · subst he; exact hq
      · exact ih running fp hrest p ht
    · rcases List.mem_cons.mp hp with he | ht
      · subst he
        exact invalidateStep_frames_le q.2 n running fp hq
      · exact ih _ _ hrest p ht

lemma tick_roots (ls : LoopState) (t : Int) (d : Nat → Int) :
    (tick ls t d).1.roots = (processRoots t d ls.init ls.roots).1 := by
  unfold tick
  dsimp only
  split <;> rfl

lemma execOp_frames_le (ls : LoopState) (op : Op)
    (h : ∀ p ∈ ls.roots, p.2.internal.frames ≤ 60) :
    ∀ p ∈ (execOp ls op).roots, p.2.internal.frames ≤ 60 := by
  cases op with
  | tick t d =>
    intro p hp
    rw [show (execOp ls (Op.tick t d)).roots = (tick ls t d).1.roots from rfl,
        tick_roots] at hp
    exact processRoots_frames_le t d ls.roots ls.init h p hp
  | invalidateAll n =>
    intro p hp
    exact invalidateRoots_frames_le 1 (fun _ => true) ls.roots ls.running ls.framePending h p hp
  | invalidateRoot rid n =>
    intro p hp
    exact invalidateRoots_frames_le n (fun j => j == rid) ls.roots ls.running ls.framePending h p hp

/-- C5: for every sequence of driver operations (ticks, global invalidations,
per-root invalidations), every root's pending-frame counter stays at most 60
(the lower bound 0 holds by construction: the counter is a natural number and
the per-tick decrement `Math.max(0, frames - 1)` is truncated subtraction);
and each processed tick decrements the counter by exactly one, floored at
zero. -/
theorem frames_bounded_all_sequences :
    (∀ (ls : LoopState) (ops : List Op),
        (∀ p ∈ ls.roots, p.2.internal.frames ≤ 60) →
        ∀ p ∈ (execSeq ls ops).roots, p.2.internal.frames ≤ 60)
    ∧ (∀ (t d : Int) (rid : Nat) (s : RootState),
        ((update t d rid s).1).internal.frames = s.internal.frames - 1) := by
  constructor
  · intro ls ops
    induction ops generalizing ls with
    | nil => exact fun h => h
    | cons op rest ih =>
      intro h
      exact ih (execOp ls op) (execOp_frames_le ls op h)
  · intro t d rid s
    rfl

/-- C5 witness: instance of `frames_bounded_all_sequences` on the two-root
driver after a large per-root invalidation followed by a tick. -/
theorem frames_bounded_all_sequences_witness :
    (∀ p ∈ twoRootsInit.roots, p.2.internal.frames ≤ 60)
    ∧ (∀ p ∈ (execSeq twoRootsInit
          [Op.invalidateRoot 0 100, Op.tick 0 dz]).roots,
        p.2.internal.frames ≤ 60) :=
  ⟨by decide, frames_bounded_all_sequences.1 twoRootsInit
    [Op.invalidateRoot 0 100, Op.tick 0 dz] (by decide)⟩

lemma invalidateStep_eligible (s : RootState) (n : Nat) (fp : Bool)
    (hx : s.xrPresenting = false) (ha : s.internal.active = true)
    (hf : s.frameloop ≠ Frameloop.never) :
    invalidateStep s n false fp
        = ({ s with internal :=
              { s.internal with frames := min 60 (s.internal.frames + n) } },
            true, true, [Ev.reqFrame])
    ∧ invalidateStep s n true fp
        = ({ s with internal :=
              { s.internal with frames := min 60 (s.internal.frames + n) } },
            true, fp, []) := by
  have hcond : ¬ (s.xrPresenting = true ∨ s.internal.active = false
      ∨ s.frameloop = Frameloop.never) := by
    rintro (h | h | h)
    · rw [hx] at h; cases h
    · rw [ha] at h; cases h
    · exact hf h
  constructor
  · unfold invalidateStep
    rw [if_neg hcond]
    rfl
  · unfold invalidateStep
    rw [if_neg hcond]
    rfl

/-- C6: `invalidate(rootState, n)` is a silent no-op — driver state, root
state and trace unchanged — when the root's XR flag is set, or it is
inactive, or its frame-loop mode is `never`; otherwise the root's counter
becomes `min 60 (counter + n)` and, if the driver was not running, it starts
running and requests a host tick (Idle to Running), while a running driver is
left as is with no request. -/
theorem invalidate_root_semantics :
    ∀ (ls : LoopState) (s : RootState) (n : Nat),
      ((s.xrPresenting = true ∨ s.internal.active = false
          ∨ s.frameloop = Frameloop.never) →
        invalidate ls (some s) n = (ls, some s, []))
      ∧ (s.xrPresenting = false → s.internal.active = true →
          s.frameloop ≠ Frameloop.never →
          (ls.running = false →
            invalidate ls (some s) n
              = ({ ls with running := true, framePending := true },
                  some { s with internal :=
                    { s.internal with frames := min 60 (s.internal.frames + n) } },
                  [Ev.reqFrame]))
          ∧ (ls.running = true →
            invalidate ls (some s) n
              = (ls,
                  some { s with internal :=
                    { s.internal with frames := min 60 (s.internal.frames + n) } },
                  []))) := by
  intro ls s n
  constructor
  · intro h
    unfold invalidate invalidateStep
    dsimp only
    rw [if_pos h]
  · intro hx ha hf
    constructor
    · intro hrun
      unfold invalidate
      dsimp only
      rw [hrun, (invalidateStep_eligible s n ls.framePending hx ha hf).1]
    · intro hrun
      cases ls with
      | mk roots ge ga gt init run fp =>
        have hrun2 : run = true := hrun
        subst hrun2
        unfold invalidate
        dsimp only
        rw [(invalidateStep_eligible s n fp hx ha hf).2]

/-- C6 witness: instance of `invalidate_root_semantics` at an idle driver and
an eligible demand-mode root. -/
theorem invalidate_root_semantics_witness :
    demandRoot0.xrPresenting = false
    ∧ twoRootsInit.running = false
    ∧ invalidate twoRootsInit (some demandRoot0) 4
        = ({ twoRootsInit with running := true, framePending := true },
            some { demandRoot0 with internal :=
              { demandRoot0.internal with
                  frames := min 60 (demandRoot0.internal.frames + 4) } },
            [Ev.reqFrame]) :=
  ⟨rfl, rfl,
    ((invalidate_root_semantics twoRootsInit demandRoot0 4).2 rfl rfl
      (by decide)).1 rfl⟩

lemma update_noTail (t d : Int) (rid : Nat) (s : RootState) :
    ((update t d rid s).2.2).all (fun e => !e.isTail) = true := by
  show (s.internal.stages.map
      (fun st => Ev.stageFrame rid st
        (deltaClock t d s.internal.maxDelta s.frameloop s.clock).1)).all
      (fun e => !e.isTail) = true
  simp [List.all_eq_true, Ev.isTail]

lemma tickRoot_noTail (t d : Int) (init : Bool) (rid : Nat) (s : RootState) :
    ((tickRoot t d init rid s).2.2).all (fun e => !e.isTail) = true := by
  unfold tickRoot
  cases init <;> dsimp only [cond_false, cond_true] <;> split
  · exact update_noTail t d rid s
  · rfl
  · exact update_noTail t d rid (installEntries s)
  · rfl

lemma processRoots_noTail (t : Int) (d : Nat → Int) :
    ∀ (rs : List (Nat × RootState)) (init : Bool),
      ((processRoots t d init rs).2.2).all (fun e => !e.isTail) = true := by
  intro rs
  induction rs with
  | nil => intro init; rfl
  | cons q rest ih =>
    intro init
    show ((tickRoot t (d q.1) init q.1 q.2).2.2
        ++ (processRoots t d false rest).2.2).all _ = true
    rw [List.all_append, tickRoot_noTail, ih false]
    rfl

lemma map_pre_noTail (cs : List Nat) (t : Int) :
    (cs.map (fun c => Ev.pre c t)).all (fun e => !e.isTail) = true := by
  simp [List.all_eq_true, Ev.isTail]

lemma map_post_noTail (cs : List Nat) (t : Int) :
    (cs.map (fun c => Ev.post c t)).all (fun e => !e.isTail) = true := by
  simp [List.all_eq_true, Ev.isTail]

/-- C7: at the end of a tick, if the summed repeat is zero, the trace is the
request, the pre-effects, the per-root work and the post-effects followed by
the tail effects (exactly once each, in registration order) and the
cancellation of the tick requested at the top — so no tick remains requested
and the driver is no longer running; if the repeat is nonzero, no tail effect
appears anywhere in the trace, the tick requested at the start of the loop
remains pending, and the driver stays running. -/
theorem tick_tail_and_rearm :
    ∀ (ls : LoopState) (t : Int) (d : Nat → Int),
      ((tick ls t d).2.1 = 0 →
        (tick ls t d).2.2
          = (Ev.reqFrame ::
              (ls.globalEffects.map (fun c => Ev.pre c t)
                ++ (processRoots t d ls.init ls.roots).2.2
                ++ ls.globalAfterEffects.map (fun c => Ev.post c t)))
            ++ ls.globalTailEffects.map (fun c => Ev.tail c t) ++ [Ev.cancelFrame]
        ∧ (tick ls t d).1.running = false
        ∧ (tick ls t d).1.framePending = false)
      ∧ ((tick ls t d).2.1 ≠ 0 →
        (tick ls t d).2.2
          = Ev.reqFrame ::
              (ls.globalEffects.map (fun c => Ev.pre c t)
                ++ (processRoots t d ls.init ls.roots).2.2
                ++ ls.globalAfterEffects.map (fun c => Ev.post c t))
        ∧ ((tick ls t d).2.2).all (fun e => !e.isTail) = true
        ∧ (tick ls t d).1.running = true
        ∧ (tick ls t d).1.framePending = true) := by
  intro ls t d
  have hrep := tick_rep ls t d
  constructor
  · intro h0
    rw [hrep] at h0
    unfold tick
    dsimp only
    rw [if_pos h0]
    exact ⟨rfl, rfl, rfl⟩
  · intro hne
    rw [hrep] at hne
    unfold tick
    dsimp only
    rw [if_neg hne]
    refine ⟨rfl, ?_, rfl, rfl⟩
    rw [List.all_cons, List.all_append, List.all_append]
    rw [map_pre_noTail, map_post_noTail, processRoots_noTail]
    rfl

/-- C7 witness: instance of `tick_tail_and_rearm` on a tick whose repeat is
zero (no roots): the tail effect runs once and the tick is cancelled. -/
theorem tick_tail_and_rearm_witness :
    (tick tailLoop 0 dz).2.1 = 0
    ∧ ((tick tailLoop 0 dz).2.2
        = (Ev.reqFrame ::
            (tailLoop.globalEffects.map (fun c => Ev.pre c 0)
              ++ (processRoots 0 dz tailLoop.init tailLoop.roots).2.2
              ++ tailLoop.globalAfterEffects.map (fun c => Ev.post c 0)))
          ++ tailLoop.globalTailEffects.map (fun c => Ev.tail c 0) ++ [Ev.cancelFrame]
      ∧ (tick tailLoop 0 dz).1.running = false
      ∧ (tick tailLoop 0 dz).1.framePending = false) :=
  ⟨by decide, (tick_tail_and_rearm tailLoop 0 dz).1 (by decide)⟩

/-- C8: when a processed root is in `never` mode and its (stopped) clock
reports no autonomous delta, the stage delta is the supplied timestamp minus
the previously recorded elapsed time, the recorded elapsed time becomes the
timestamp and the old time the previously recorded elapsed time; in `always`
or `demand` mode the stage delta is the clock's reported delta clamped to
the root's configured maximum. -/
theorem update_delta_semantics :
    ∀ (t d : Int) (rid : Nat) (s : RootState),
      (s.frameloop = Frameloop.never → d = 0 →
        ((update t d rid s).1).clock.elapsedTime = t
        ∧ ((update t d rid s).1).clock.oldTime = s.clock.elapsedTime
        ∧ (update t d rid s).2.2
            = s.internal.stages.map
                (fun st => Ev.stageFrame rid st (t - s.clock.elapsedTime)))
      ∧ (s.frameloop ≠ Frameloop.never →
        (update t d rid s).2.2
            = s.internal.stages.map
                (fun st => Ev.stageFrame rid st (min d s.internal.maxDelta))) := by
  intro t d rid s
  constructor
  · intro hf hd
    subst hd
    unfold update deltaClock
    dsimp only
    rw [if_pos hf]
    refine ⟨rfl, ?_, ?_⟩
    · exact add_zero _
    · simp only [add_zero]
  · intro hf
    unfold update deltaClock
    dsimp only
    rw [if_neg hf]

/-- C8 witness: instances of `update_delta_semantics` for a never-mode root
with a stopped clock and for a demand-mode root. -/
theorem update_delta_semantics_witness :
    neverIdleRoot.frameloop = Frameloop.never
    ∧ ((update 7 0 0 neverIdleRoot).1).clock.elapsedTime = 7
    ∧ demandRoot0.frameloop ≠ Frameloop.never
    ∧ (update 7 5 0 demandRoot0).2.2
        = demandRoot0.internal.stages.map
            (fun st => Ev.stageFrame 0 st (min 5 demandRoot0.internal.maxDelta)) :=
  ⟨rfl, ((update_delta_semantics 7 0 0 neverIdleRoot).1 rfl rfl).1,
    by decide, (update_delta_semantics 7 5 0 demandRoot0).2 (by decide)⟩

lemma map_pre_noTailReq (cs : List Nat) (t : Int) :
    (cs.map (fun c => Ev.pre c t)).all (fun e => !(e.isTail || e.isReq)) = true := by
  simp [List.all_eq_true, Ev.isTail, Ev.isReq]

lemma map_post_noTailReq (cs : List Nat) (t : Int) :
    (cs.map (fun c => Ev.post c t)).all (fun e => !(e.isTail || e.isReq)) = true := by
  simp [List.all_eq_true, Ev.isTail, Ev.isReq]

lemma update_noTailReq (t d : Int) (rid : Nat) (s : RootState) :
    ((update t d rid s).2.2).all (fun e => !(e.isTail || e.isReq)) = true := by
  show (s.internal.stages.map
      (fun st => Ev.stageFrame rid st
        (deltaClock t d s.internal.maxDelta s.frameloop s.clock).1)).all
      (fun e => !(e.isTail || e.isReq)) = true
  simp [List.all_eq_true, Ev.isTail, Ev.isReq]

/-- C9: `advance(t, true, someRootState)` yields the driver state unchanged
(same Running/Idle flag, same pending host tick, same `init`, same Root Set),
the updated target root, and a trace that is exactly the global pre-effects,
then all of that one root's pipeline stages with the computed delta, then the
global post-effects — containing no tail effect and no host tick request. -/
theorem advance_single_root :
    ∀ (ls : LoopState) (t : Int) (d : Nat → Int) (rid : Nat) (s : RootState),
      advance ls t d true (some (rid, s))
        = (ls, some (update t (d rid) rid s).1,
            ls.globalEffects.map (fun c => Ev.pre c t)
              ++ (update t (d rid) rid s).2.2
              ++ ls.globalAfterEffects.map (fun c => Ev.post c t))
      ∧ (update t (d rid) rid s).2.2
          = s.internal.stages.map (fun st => Ev.stageFrame rid st
              (deltaClock t (d rid) s.internal.maxDelta s.frameloop s.clock).1)
      ∧ ((advance ls t d true (some (rid, s))).2.2).all
            (fun e => !(e.isTail || e.isReq)) = true := by
  intro ls t d rid s
  refine ⟨rfl, rfl, ?_⟩
  show ((ls.globalEffects.map (fun c => Ev.pre c t)
      ++ (update t (d rid) rid s).2.2)
      ++ ls.globalAfterEffects.map (fun c => Ev.post c t)).all
      (fun e => !(e.isTail || e.isReq)) = true
  rw [List.all_append, List.all_append]
  rw [map_pre_noTailReq, map_post_noTailReq, update_noTailReq]
  rfl

/-- C10: a global `invalidate` issued while the Root Set is empty changes
nothing at all: the driver state (including the Running/Idle flag and the
pending-tick flag) is returned unchanged and the trace is empty, so no tick
is requested and an idle driver stays idle. -/
theorem invalidate_empty_roots_noop :
    ∀ (ls : LoopState) (n : Nat), ls.roots = [] →
      invalidate ls none n = (ls, none, []) := by
  intro ls n h
  cases ls with
  | mk roots ge ga gt init run fp =>
    have h2 : roots = [] := h
    subst h2
    rfl

/-- C10 witness: instance of `invalidate_empty_roots_noop` on the empty idle
driver with frame count 5. -/
theorem invalidate_empty_roots_noop_witness :
    emptyLoop.roots = [] ∧ invalidate emptyLoop none 5 = (emptyLoop, none, []) :=
  ⟨rfl, invalidate_empty_roots_noop emptyLoop 5 rfl⟩

/-- C1 (code bug): `invalidate(none, 5)` on a driver with one eligible root
must, per the claim, set that root's counter to `min 60 (0 + 5) = 5`; the
source instead passes `frames` as the `thisArg` of `forEach`, so the fan-out
call uses the default frame count 1 and the counter becomes 1. -/
theorem invalidate_global_frameCount_dropped :
    (invalidate oneDemandLoop none 5).1.roots.map (fun p => p.2.internal.frames) = [1]
    ∧ ¬ ((invalidate oneDemandLoop none 5).1.roots.map (fun p => p.2.internal.frames)
          = [min 60 (0 + 5)]) := by
  decide

end Loop
